import Mathlib

/-!
Verification of the scoped event bus (EventBus.ts) against its
natural-language specification.

The data model and all operations below are shallow embeddings of the
TypeScript class EventBus in src/EventBus.ts.  JavaScript Map objects
become insertion-ordered association lists, callbacks become values
with reference identity plus the behaviour visible to the bus
(invocability and whether the callback calls preventDefault), and the
mutable in-place loops of the source become structurally recursive
functions that reproduce the splice and index arithmetic of the source
exactly, including the missing index decrement in
addScopedEventListener.
-/

namespace SEB

/-- Phase of a scoped event: the source type ScopedEventPhase with the two
string values before and after (after is the default). -/
inductive Phase where
  | before
  | after
deriving DecidableEq, Repr

/-- A callback value as the bus sees it: identity (JavaScript reference
equality becomes equality of id), whether it is an invocable function
(the source checks typeof callback === function in addEventListener and
removeEventListener), and whether invoking it calls preventDefault on
the received event. -/
structure Callback where
  id : Nat
  isFn : Bool
  prevents : Bool
deriving DecidableEq, Repr

/-- A listener entry of the bus listener map: the source type
ScopedEventListener.  The subscriber is always set by
addScopedEventListener, so it is a plain string here. -/
structure ScopedEventListener where
  callback : Callback
  phase : Phase
  scope : Option String
  subscriber : String
deriving DecidableEq, Repr

/-- A key of the _subscribers Map.  The TypeScript Map is keyed by the
value passed for one event entry: normally a string, but the public
interface also admits RegExp objects, which the Map then compares by
object identity; a pattern key carries a numeric identity standing for
that object identity. -/
inductive EventKey where
  | name (s : String)
  | pattern (id : Nat)
deriving DecidableEq, Repr

/-- The _subscribers Map of the source, as an insertion-ordered
association list (JavaScript Map iteration order). -/
abbrev Registry := List (EventKey × List ScopedEventListener)

/-- Listener options of addEventListener and removeEventListener: the
source type ScopedEventListenerOptions. -/
structure ScopedEventListenerOptions where
  phase : Option Phase
  scope : Option String
  subscriber : Option String
deriving DecidableEq, Repr

/-- The state of one EventBus instance: the _subscribers Map plus the
plain listener list of the inherited EventTarget (the listeners that
super.addEventListener stores and dispatchEvent delivers to). -/
structure BusState where
  subscribers : Registry
  plainListeners : List (String × Callback)
deriving DecidableEq, Repr

/-- A bus with no listeners at all. -/
def emptyBus : BusState := { subscribers := [], plainListeners := [] }

/-- JavaScript truthiness of an optional string: undefined and the empty
string are falsy. -/
def truthy : Option String → Bool
  | none => false
  | some s => decide (s ≠ "")

/-- JavaScript truthiness of an optional phase: the phase strings before
and after are both non-empty, so a present phase is always truthy. -/
def phTruthy (p : Option Phase) : Bool :=
  p.isSome

/-- Map.get of the source: first entry with the given key. -/
def mapGet (m : Registry) (k : EventKey) : Option (List ScopedEventListener) :=
  match m with
  | [] => none
  | (k2, b) :: rest => if k2 = k then some b else mapGet rest k

/-- Map.set of the source: overwrite in place when the key exists,
append a new entry otherwise (JavaScript Map keeps insertion order). -/
def mapSet (m : Registry) (k : EventKey) (b : List ScopedEventListener) : Registry :=
  match m with
  | [] => [(k, b)]
  | (k2, b2) :: rest => if k2 = k then (k, b) :: rest else (k2, b2) :: mapSet rest k b

/-- Map.delete of the source: drop the entry with the given key. -/
def mapDelete (m : Registry) (k : EventKey) : Registry :=
  match m with
  | [] => []
  | (k2, b2) :: rest => if k2 = k then rest else (k2, b2) :: mapDelete rest k

/-- The scan loop of addScopedEventListener over one bucket.  It mirrors
the source for loop exactly: on a record matching (subscriber, phase,
callback) whose scope is falsy or equal to the requested scope, the
whole event entry is skipped via continue event_loop (no push, rest of
the bucket untouched); on a match with a different truthy scope while
the requested scope is falsy, the record is spliced out, and because
the source does not decrement the loop index after the splice, the
element that follows the spliced one is kept without being examined.
Returns the resulting bucket and whether the new record is pushed. -/
def addLoop (cb : Callback) (subscriber : String) (phase : Phase) (scope : Option String) :
    List ScopedEventListener → List ScopedEventListener × Bool
  | [] => ([], true)
  | s :: rest =>
    if s.subscriber = subscriber ∧ s.phase = phase ∧ s.callback = cb then
      if ¬ truthy s.scope ∨ s.scope = scope then
        (s :: rest, false)
      else if ¬ truthy scope then
        match rest with
        | [] => ([], true)
        | r2 :: rest2 =>
          let q := addLoop cb subscriber phase scope rest2
          (r2 :: q.1, q.2)
      else
        let q := addLoop cb subscriber phase scope rest
        (s :: q.1, q.2)
    else
      let q := addLoop cb subscriber phase scope rest
      (s :: q.1, q.2)

/-- One iteration of the event_loop of addScopedEventListener for one
event key: getOrSetValue fetches or creates the bucket, the scan loop
runs, and the new record is pushed unless the scan hit the dedup case. -/
def addOne (cb : Callback) (subscriber : String) (phase : Phase) (scope : Option String)
    (r : Registry) (e : EventKey) : Registry :=
  let b := (mapGet r e).getD []
  let q := addLoop cb subscriber phase scope b
  let final := if q.2 then q.1 ++ [⟨cb, phase, scope, subscriber⟩] else q.1
  mapSet r e final

/-- addScopedEventListener of the source.  The source accepts one event
or an array and wraps a single event into an array; the embedding takes
the wrapped list directly.  The returned unsubscriber closure of the
source only captures the arguments for a later removeScopedEventListener
call and is not part of the state, so the embedding returns the new
state. -/
def addScopedEventListener (st : BusState) (events : List EventKey) (callback : Callback)
    (subscriber : String) (scope : Option String) (phase : Phase) : BusState :=
  { st with subscribers := events.foldl (addOne callback subscriber phase scope) st.subscribers }

/-- Removal of the first record of one bucket satisfying the predicate:
the inner loop of removeScopedEventListener, which splices the first
match and then breaks.  Returns none when no record matches (no splice,
no key deletion). -/
def removeFirstMatch (p : ScopedEventListener → Bool) :
    List ScopedEventListener → Option (List ScopedEventListener)
  | [] => none
  | r :: rest => if p r then some rest else (removeFirstMatch p rest).map fun l => r :: l

/-- The removal condition of removeScopedEventListener: callback and
subscriber must be equal, and a truthy phase or scope argument must be
equal as well (a falsy one matches anything). -/
def removeMatchPred (callback : Callback) (subscriber : String) (scope : Option String)
    (phase : Option Phase) (s : ScopedEventListener) : Bool :=
  decide (s.callback = callback) && decide (s.subscriber = subscriber) &&
  (!phTruthy phase || decide (some s.phase = phase)) &&
  (!truthy scope || decide (s.scope = scope))

/-- One event key step of removeScopedEventListener: splice the first
matching record of the bucket and delete the key when the bucket became
empty; a missing bucket or a bucket without a match is left alone. -/
def removeOne (callback : Callback) (subscriber : String) (scope : Option String)
    (phase : Option Phase) (r : Registry) (e : EventKey) : Registry :=
  match mapGet r e with
  | none => r
  | some subs =>
    match removeFirstMatch (removeMatchPred callback subscriber scope phase) subs with
    | none => r
    | some b2 => if b2 = [] then mapDelete r e else mapSet r e b2

/-- removeScopedEventListener of the source: for each event key, splice
the first record matching callback and subscriber and, when the phase or
scope argument is truthy, that argument as well; delete the key when the
bucket became empty. -/
def removeScopedEventListener (st : BusState) (events : List EventKey) (callback : Callback)
    (subscriber : String) (scope : Option String) (phase : Option Phase) : BusState :=
  { st with subscribers := events.foldl (removeOne callback subscriber scope phase) st.subscribers }

/-- The splice loop shared by removeAllScopedEventListeners and
removeScope: remove every record matching the predicate, walking the
bucket left to right (the source decrements the index after each splice,
so no element is skipped). -/
def removeLoop (p : ScopedEventListener → Bool) :
    List ScopedEventListener → List ScopedEventListener
  | [] => []
  | r :: rest => if p r then removeLoop p rest else r :: removeLoop p rest

/-- The outer Map loop shared by removeAllScopedEventListeners and
removeScope: run the splice loop on every bucket and delete a key whose
bucket was non-empty and became empty (the source deletes the key at the
moment the last splice empties the bucket and breaks; an already empty
bucket is never spliced and therefore never deleted). -/
def removeAllEntries (p : ScopedEventListener → Bool) : Registry → Registry
  | [] => []
  | (k, b) :: rest =>
    let b2 := removeLoop p b
    if b2 = [] ∧ b ≠ [] then removeAllEntries p rest
    else (k, b2) :: removeAllEntries p rest

/-- removeAllScopedEventListeners of the source: remove every record of
the given subscriber, restricted to records of the given scope when the
scope argument is truthy. -/
def removeAllScopedEventListeners (st : BusState) (subscriber : String)
    (scope : Option String) : BusState :=
  { st with subscribers := removeAllEntries (fun s =>
      decide (s.subscriber = subscriber) && (!truthy scope || decide (s.scope = scope))) st.subscribers }

/-- removeScope of the source: remove every record whose scope equals
the given scope. -/
def removeScope (st : BusState) (scope : String) : BusState :=
  { st with subscribers := removeAllEntries (fun s => decide (s.scope = some scope)) st.subscribers }

/-- The mutable per-dispatch state of the CustomEvent object: whether it
was constructed cancelable and whether preventDefault has taken effect. -/
structure EventObj where
  cancelable : Bool
  defaultPrevented : Bool
deriving DecidableEq, Repr

/-- preventDefault of the DOM event contract: it sets defaultPrevented
only on a cancelable event. -/
def preventDefault (e : EventObj) : EventObj :=
  if e.cancelable then { e with defaultPrevented := true } else e

/-- Invoking a callback: a callback whose behaviour is to call
preventDefault does so; the bus observes nothing else of the call. -/
def invokeCb (cb : Callback) (e : EventObj) : EventObj :=
  if cb.prevents then preventDefault e else e

/-- The scoped delivery loop of dispatchScopedEvent: invoke, in bucket
order, every record whose scope equals the scope argument.  The source
compares sub.scope === scope and performs no phase comparison.  Returns
the event state after the invoked callbacks ran and the list of invoked
records. -/
def dispatchLoop (scope : Option String) (e : EventObj) :
    List ScopedEventListener → EventObj × List ScopedEventListener
  | [] => (e, [])
  | s :: rest =>
    if s.scope = scope then
      let q := dispatchLoop scope (invokeCb s.callback e) rest
      (q.1, s :: q.2)
    else
      dispatchLoop scope e rest

/-- The plain listener delivery of the inherited EventTarget
dispatchEvent: invoke every plain listener registered for the event
type, in order. -/
def runPlain (event : String) (e : EventObj) :
    List (String × Callback) → EventObj × List Callback
  | [] => (e, [])
  | (t, cb) :: rest =>
    if t = event then
      let q := runPlain event (invokeCb cb e) rest
      (q.1, cb :: q.2)
    else
      runPlain event e rest

/-- EventTarget.dispatchEvent: deliver to the plain listeners of the
event type and return false exactly when the event was cancelable and a
listener called preventDefault. -/
def dispatchEvent (st : BusState) (event : String) (e : EventObj) :
    Bool × EventObj × List Callback :=
  let q := runPlain event e st.plainListeners
  (!q.1.defaultPrevented, q.1, q.2)

/-- The outcome of one dispatchScopedEvent call: the state of the bus
afterwards, the scoped records invoked by the scope loop, whether the
global dispatchEvent was reached, the plain listeners it invoked, and
the boolean return value. -/
structure DispatchResult where
  state : BusState
  scopedInvoked : List ScopedEventListener
  globalDispatched : Bool
  globalInvoked : List Callback
  returnValue : Bool
deriving DecidableEq, Repr

/-- dispatchScopedEvent of the source.  The CustomEvent is constructed
with a detail object only, so cancelable is false.  When the scope
argument is truthy, the bucket of the event name is walked and every
record with equal scope is invoked.  Afterwards the global dispatchEvent
runs unless the phase is before and the event is cancelable and
defaultPrevented; in that excluded case false is returned.  The detail
argument only populates the event detail and does not influence
control flow. -/
def dispatchScopedEvent (st : BusState) (event : String) (scope : Option String)
    (phase : Phase) (_detail : List (String × String)) : DispatchResult :=
  let e0 : EventObj := { cancelable := false, defaultPrevented := false }
  let sres :=
    if truthy scope then
      match mapGet st.subscribers (EventKey.name event) with
      | some subs => dispatchLoop scope e0 subs
      | none => (e0, [])
    else (e0, [])
  let tail :=
    if phase = Phase.after ∨ ¬ sres.1.cancelable ∨ ¬ sres.1.defaultPrevented then
      let q := dispatchEvent st event sres.1
      (true, q.2.2, q.1)
    else
      (false, [], false)
  { state := st
    scopedInvoked := sres.2
    globalDispatched := tail.1
    globalInvoked := tail.2.1
    returnValue := tail.2.2 }

/-- The EventTarget base addEventListener: append the listener unless an
identical (type, callback) pair is already registered. -/
def superAddEventListener (st : BusState) (t : String) (cb : Callback) : BusState :=
  if (t, cb) ∈ st.plainListeners then st
  else { st with plainListeners := st.plainListeners ++ [(t, cb)] }

/-- Removal of the first matching plain listener for the EventTarget
base removeEventListener. -/
def removeFirstPlain (t : String) (cb : Callback) :
    List (String × Callback) → List (String × Callback)
  | [] => []
  | (t2, cb2) :: rest =>
    if t2 = t ∧ cb2 = cb then rest else (t2, cb2) :: removeFirstPlain t cb rest

/-- The EventTarget base removeEventListener. -/
def superRemoveEventListener (st : BusState) (t : String) (cb : Callback) : BusState :=
  { st with plainListeners := removeFirstPlain t cb st.plainListeners }

/-- addEventListener of the source: a non-function callback returns
immediately; an options object with a truthy subscriber and truthy
phase, scope and subscriber is redirected to addScopedEventListener;
everything else goes to the EventTarget base method. -/
def addEventListener (st : BusState) (t : String) (callback : Callback)
    (options : Option ScopedEventListenerOptions) : BusState :=
  if ¬ callback.isFn then st
  else
    match options with
    | some opts =>
      if truthy opts.subscriber then
        if phTruthy opts.phase ∧ truthy opts.scope ∧ truthy opts.subscriber then
          addScopedEventListener st [EventKey.name t] callback (opts.subscriber.getD "")
            opts.scope (opts.phase.getD Phase.after)
        else
          superAddEventListener st t callback
      else
        superAddEventListener st t callback
    | none => superAddEventListener st t callback

/-- removeEventListener of the source: a non-function callback returns
immediately; an options object with a truthy subscriber is redirected to
removeScopedEventListener; everything else goes to the EventTarget base
method. -/
def removeEventListener (st : BusState) (t : String) (callback : Callback)
    (options : Option ScopedEventListenerOptions) : BusState :=
  if ¬ callback.isFn then st
  else
    match options with
    | some opts =>
      if truthy opts.subscriber then
        removeScopedEventListener st [EventKey.name t] callback (opts.subscriber.getD "")
          opts.scope opts.phase
      else
        superRemoveEventListener st t callback
    | none => superRemoveEventListener st t callback

/-! Concrete callbacks and bus states used by the claim theorems. -/

/-- A plain invocable callback. -/
def cbA : Callback := ⟨0, true, false⟩

/-- Further distinct invocable callbacks. -/
def cbB : Callback := ⟨1, true, false⟩

/-- Third distinct invocable callback. -/
def cbC : Callback := ⟨2, true, false⟩

/-- Fourth distinct invocable callback. -/
def cbD : Callback := ⟨3, true, false⟩

/-- A plain global listener callback. -/
def cbG : Callback := ⟨5, true, false⟩

/-- An invocable callback that calls preventDefault when invoked. -/
def cbPrev : Callback := ⟨6, true, true⟩

/-- A callback registered for the pattern-listener example. -/
def cbP : Callback := ⟨7, true, false⟩

/-- A value that is not an invocable function. -/
def junkCb : Callback := ⟨9, false, false⟩

/-- One record of subscriber sub with scope a on event ev. -/
def c4s1 : BusState :=
  addScopedEventListener emptyBus [EventKey.name "ev"] cbA "sub" (some "a") Phase.after

/-- A second record of the same (callback, subscriber, phase) with scope b. -/
def c4s2 : BusState :=
  addScopedEventListener c4s1 [EventKey.name "ev"] cbA "sub" (some "b") Phase.after

/-- The same (callback, subscriber, phase) registered globally (no scope). -/
def c4s3 : BusState :=
  addScopedEventListener c4s2 [EventKey.name "ev"] cbA "sub" none Phase.after

/-- The identical global registration repeated a second time. -/
def c5s4 : BusState :=
  addScopedEventListener c4s3 [EventKey.name "ev"] cbA "sub" none Phase.after

/-- A before-phase listener of scope s whose callback calls
preventDefault, together with a plain global listener on the same
event. -/
def c1State : BusState :=
  superAddEventListener
    (addScopedEventListener emptyBus [EventKey.name "ev"] cbPrev "sub" (some "s") Phase.before)
    "ev" cbG

/-- A before-phase listener of scope s. -/
def c2State : BusState :=
  addScopedEventListener emptyBus [EventKey.name "ev"] cbA "sub" (some "s") Phase.before

/-- A pattern listener registered under scope orders, stored under the
identity of the RegExp object used as the Map key. -/
def c3State : BusState :=
  addScopedEventListener emptyBus [EventKey.pattern 0] cbP "billing" (some "orders") Phase.after

/-- Modelled from the spec: the full-string match of the example pattern
(caret order dash backslash d plus dollar) against an event name, the
regular-expression matching that the source does not implement for
dispatch.  A name matches when it is the literal order dash followed by
one or more digits. -/
def orderPatternMatches (s : String) : Bool :=
  decide (s.data.take 6 = ['o', 'r', 'd', 'e', 'r', '-']) &&
  decide (s.data.drop 6 ≠ []) &&
  (s.data.drop 6).all (fun c => c.isDigit)

/-- Three listeners of scope S and one without a scope, all on event ev,
with distinct callbacks and subscribers. -/
def c8s : BusState :=
  addScopedEventListener
    (addScopedEventListener
      (addScopedEventListener
        (addScopedEventListener emptyBus [EventKey.name "ev"] cbA "subA" (some "S") Phase.after)
        [EventKey.name "ev"] cbB "subB" (some "S") Phase.after)
      [EventKey.name "ev"] cbC "subC" (some "S") Phase.after)
    [EventKey.name "ev"] cbD "subD" none Phase.after

/-! Helper lemmas. -/

/-- The invoked list of the scoped dispatch loop is the in-order
sublist of records whose scope equals the dispatch scope, independent of
the threaded event state. -/
theorem dispatchLoop_snd (sc : Option String) (e : EventObj) (l : List ScopedEventListener) :
    (dispatchLoop sc e l).2 = l.filter (fun r => decide (r.scope = sc)) := by
  induction l generalizing e with
  | nil => rfl
  | cons r rest ih =>
    by_cases h : r.scope = sc
    · simp [dispatchLoop, h, ih]
    · simp [dispatchLoop, h, ih]

/-- The splice loop of the bulk removers keeps exactly the records that
do not satisfy the removal predicate, in order. -/
theorem removeLoop_eq_filter (p : ScopedEventListener → Bool) (l : List ScopedEventListener) :
    removeLoop p l = l.filter (fun r => !p r) := by
  induction l with
  | nil => rfl
  | cons r rest ih =>
    by_cases h : p r
    · simp [removeLoop, h, ih]
    · simp [removeLoop, h, ih]

/-- The outer Map loop of the bulk removers filters every bucket and
deletes a key exactly when its bucket was non-empty and every record of
it was removed. -/
theorem removeAllEntries_eq (p : ScopedEventListener → Bool) (r : Registry) :
    removeAllEntries p r = r.filterMap (fun q =>
      let kept := q.2.filter (fun s => !p s)
      if kept = [] ∧ q.2 ≠ [] then none else some (q.1, kept)) := by
  induction r with
  | nil => rfl
  | cons q0 rest ih =>
    obtain ⟨k, b⟩ := q0
    simp only [removeAllEntries, removeLoop_eq_filter, List.filterMap_cons, ih]
    by_cases hc : List.filter (fun s => !p s) b = [] ∧ ¬b = []
    · rw [if_pos hc, if_pos hc]
    · rw [if_neg hc, if_neg hc]

/-- Every bucket of the registry is non-empty: the no-dangling-empty-
bucket invariant of the specification. -/
def nonEmptyBuckets (r : Registry) : Prop := ∀ q ∈ r, q.2 ≠ []

instance (r : Registry) : Decidable (nonEmptyBuckets r) :=
  inferInstanceAs (Decidable (∀ q ∈ r, q.2 ≠ []))

/-- Map.set keeps the invariant when the written bucket is non-empty. -/
theorem mapSet_preserves (r : Registry) (k : EventKey) (b : List ScopedEventListener)
    (hr : nonEmptyBuckets r) (hb : b ≠ []) : nonEmptyBuckets (mapSet r k b) := by
  induction r with
  | nil =>
    intro q hq
    simp [mapSet] at hq
    simp [hq, hb]
  | cons q0 rest ih =>
    intro q hq
    by_cases hk : q0.1 = k
    · simp [mapSet, hk] at hq
      rcases hq with hq | hq
      · simp [hq, hb]
      · exact hr q (List.mem_cons_of_mem q0 hq)
    · simp [mapSet, hk] at hq
      rcases hq with hq | hq
      · exact hr q (by simp [hq])
      · exact ih (fun q2 hq2 => hr q2 (List.mem_cons_of_mem q0 hq2)) q hq

/-- Map.delete keeps the invariant. -/
theorem mapDelete_preserves (r : Registry) (k : EventKey)
    (hr : nonEmptyBuckets r) : nonEmptyBuckets (mapDelete r k) := by
  induction r with
  | nil => intro q hq; simp [mapDelete] at hq
  | cons q0 rest ih =>
    intro q hq
    by_cases hk : q0.1 = k
    · simp [mapDelete, hk] at hq
      exact hr q (List.mem_cons_of_mem q0 hq)
    · simp [mapDelete, hk] at hq
      rcases hq with hq | hq
      · exact hr q (by simp [hq])
      · exact ih (fun q2 hq2 => hr q2 (List.mem_cons_of_mem q0 hq2)) q hq

/-- The outer loop of the bulk removers keeps the invariant. -/
theorem removeAllEntries_preserves (p : ScopedEventListener → Bool) (r : Registry)
    (hr : nonEmptyBuckets r) : nonEmptyBuckets (removeAllEntries p r) := by
  induction r with
  | nil => intro q hq; simp [removeAllEntries] at hq
  | cons q0 rest ih =>
    obtain ⟨k, b⟩ := q0
    have hrest : nonEmptyBuckets rest := fun q2 hq2 => hr q2 (List.mem_cons_of_mem (k, b) hq2)
    have h0 : b ≠ [] := hr (k, b) (List.mem_cons_self (k, b) rest)
    simp only [removeAllEntries]
    by_cases hc : removeLoop p b = [] ∧ ¬b = []
    · rw [if_pos hc]
      exact ih hrest
    · rw [if_neg hc]
      intro q hq
      rcases List.mem_cons.mp hq with hq | hq
      · subst hq
        intro hempty
        exact hc ⟨hempty, h0⟩
      · exact ih hrest q hq

/-- A left fold of registry transformers that each keep the invariant
keeps the invariant. -/
theorem foldl_preserves {α : Type} (f : Registry → α → Registry)
    (hf : ∀ r a, nonEmptyBuckets r → nonEmptyBuckets (f r a)) :
    ∀ (l : List α) (r : Registry), nonEmptyBuckets r → nonEmptyBuckets (l.foldl f r) := by
  intro l
  induction l with
  | nil => intro r h; exact h
  | cons a rest ih => intro r h; exact ih (f r a) (hf r a h)

/-- One event step of removeScopedEventListener keeps the invariant. -/
theorem removeOne_preserves (callback : Callback) (subscriber : String)
    (scope : Option String) (phase : Option Phase) (r : Registry) (e : EventKey)
    (hr : nonEmptyBuckets r) :
    nonEmptyBuckets (removeOne callback subscriber scope phase r e) := by
  unfold removeOne
  split
  · exact hr
  · split
    · exact hr
    · split
      · exact mapDelete_preserves r e hr
      · next hb => exact mapSet_preserves r e _ hr hb

/-! Claim theorems. -/

/-- Claim C1, evaluation at the failing input: dispatchScopedEvent
constructs the CustomEvent without the cancelable flag, so a before
phase dispatch whose invoked before-phase scoped listener calls
preventDefault still reaches the global dispatchEvent, delivers to the
plain global listener, and returns true instead of suppressing the
broadcast and returning false. -/
theorem C1_preventDefault_does_not_suppress :
    (dispatchScopedEvent c1State "ev" (some "s") Phase.before []).scopedInvoked =
        [⟨cbPrev, Phase.before, some "s", "sub"⟩] ∧
    cbPrev.prevents = true ∧
    (dispatchScopedEvent c1State "ev" (some "s") Phase.before []).globalDispatched = true ∧
    (dispatchScopedEvent c1State "ev" (some "s") Phase.before []).globalInvoked = [cbG] ∧
    (dispatchScopedEvent c1State "ev" (some "s") Phase.before []).returnValue = true := by
  decide

/-- Claim C2, counterexample: the scoped delivery loop of
dispatchScopedEvent compares only the scope of a record, so a dispatch
of phase after with scope s invokes a record registered for phase
before, contradicting that exactly the records whose phase equals the
dispatch phase are invoked. -/
theorem C2_counterexample_phase_not_filtered :
    (dispatchScopedEvent c2State "ev" (some "s") Phase.after []).scopedInvoked =
        [⟨cbA, Phase.before, some "s", "sub"⟩] ∧
    Phase.before ≠ Phase.after := by
  decide

/-- Claim C2 as amended: for every dispatch with a non-empty scope,
exactly the records of the exact-match bucket of the event name whose
scope equals the given scope are invoked, in registration order,
regardless of their phase. -/
theorem C2_scope_filter (st : BusState) (event s : String) (phase : Phase)
    (detail : List (String × String)) (h : s ≠ "") :
    (dispatchScopedEvent st event (some s) phase detail).scopedInvoked =
      ((mapGet st.subscribers (EventKey.name event)).getD []).filter
        (fun r => decide (r.scope = some s)) := by
  have ht : truthy (some s) = true := by simp [truthy, h]
  unfold dispatchScopedEvent
  cases hm : mapGet st.subscribers (EventKey.name event) with
  | none => simp [ht, hm]
  | some subs => simp [ht, hm, dispatchLoop_snd]

/-- Claim C2 witness: the amended statement applied at a concrete
dispatch. -/
theorem C2_scope_filter_witness :
    "s" ≠ "" ∧
    (dispatchScopedEvent c2State "ev" (some "s") Phase.after []).scopedInvoked =
      ((mapGet c2State.subscribers (EventKey.name "ev")).getD []).filter
        (fun r => decide (r.scope = some "s")) :=
  ⟨by decide, C2_scope_filter c2State "ev" "s" Phase.after [] (by decide)⟩

/-- Claim C3, evaluation at the failing input: a pattern listener is
stored under the identity of the RegExp object used as the Map key, and
dispatchScopedEvent looks up only the literal event name, so dispatching
order-42 under scope orders invokes nothing although the registered
pattern (order dash digits, per the spec example) matches the name. -/
theorem C3_pattern_listener_never_invoked :
    orderPatternMatches "order-42" = true ∧
    mapGet c3State.subscribers (EventKey.pattern 0) =
      some [⟨cbP, Phase.after, some "orders", "billing"⟩] ∧
    mapGet c3State.subscribers (EventKey.name "order-42") = none ∧
    (dispatchScopedEvent c3State "order-42" (some "orders") Phase.after []).scopedInvoked = [] := by
  decide

/-- Claim C4, evaluation at the failing input: after registering the
same (callback, subscriber, phase) under scopes a and b, a global
registration splices the scope-a record but, because the source does not
decrement the loop index after the splice, skips the scope-b record;
the bucket ends with two records, the scope-b one and the global one,
not exactly one global record. -/
theorem C4_global_replace_skips_record :
    mapGet c4s3.subscribers (EventKey.name "ev") =
      some [⟨cbA, Phase.after, some "b", "sub"⟩, ⟨cbA, Phase.after, none, "sub"⟩] := by
  decide

/-- Claim C5, evaluation at the failing input: repeating the identical
global registration once more splices the leftover scope-b record, again
skips the next element (the global record just stored), and pushes a
second identical global record: the second call with an identical tuple
changed the registry and left two records for the tuple. -/
theorem C5_second_identical_call_duplicates :
    mapGet c5s4.subscribers (EventKey.name "ev") =
      some [⟨cbA, Phase.after, none, "sub"⟩, ⟨cbA, Phase.after, none, "sub"⟩] ∧
    c5s4 ≠ c4s3 := by
  decide

/-- Claim C6: on a registry whose buckets are all non-empty, each of
removeScopedEventListener, removeAllScopedEventListeners and removeScope
leaves every remaining key mapped to a non-empty bucket; a key whose
last record is removed is deleted from the Map. -/
theorem C6_no_empty_buckets (st : BusState) (h : nonEmptyBuckets st.subscribers)
    (events : List EventKey) (cb : Callback) (sub sub2 : String) (sc scB : Option String)
    (ph : Option Phase) (sc2 : String) :
    nonEmptyBuckets (removeScopedEventListener st events cb sub sc ph).subscribers ∧
    nonEmptyBuckets (removeAllScopedEventListeners st sub2 scB).subscribers ∧
    nonEmptyBuckets (removeScope st sc2).subscribers := by
  refine ⟨?_, ?_, ?_⟩
  · exact foldl_preserves (removeOne cb sub sc ph)
      (fun r a hr => removeOne_preserves cb sub sc ph r a hr) events st.subscribers h
  · exact removeAllEntries_preserves _ st.subscribers h
  · exact removeAllEntries_preserves _ st.subscribers h

/-- Claim C6 witness: the preservation statement applied to a concrete
one-record registry. -/
theorem C6_no_empty_buckets_witness :
    nonEmptyBuckets c4s1.subscribers ∧
    (nonEmptyBuckets (removeScopedEventListener c4s1 [EventKey.name "ev"] cbA "sub" none none).subscribers ∧
     nonEmptyBuckets (removeAllScopedEventListeners c4s1 "sub" none).subscribers ∧
     nonEmptyBuckets (removeScope c4s1 "a").subscribers) :=
  ⟨by decide, C6_no_empty_buckets c4s1 (by decide) [EventKey.name "ev"] cbA "sub" "sub" none none none "a"⟩

/-- Claim C7, counterexample: supplying the empty string as the scope is
falsy in the source, so removeAllScopedEventListeners removes a record
whose scope is a, although the claim says only records whose scope
equals the supplied scope are removed. -/
theorem C7_counterexample_empty_scope_wildcard :
    mapGet c4s1.subscribers (EventKey.name "ev") =
      some [⟨cbA, Phase.after, some "a", "sub"⟩] ∧
    (removeAllScopedEventListeners c4s1 "sub" (some "")).subscribers = [] := by
  decide

/-- Claim C7 as amended: removeAllScopedEventListeners removes exactly
the records of the given subscriber whose scope equals the scope
argument when that argument is truthy (present and non-empty), and all
records of the subscriber when it is absent or empty; every other record
is unchanged, order is kept, and a key whose bucket empties is
deleted. -/
theorem C7_removeAll_characterization (st : BusState) (subscriber : String)
    (scope : Option String) :
    (removeAllScopedEventListeners st subscriber scope).subscribers =
      st.subscribers.filterMap (fun q =>
        let kept := q.2.filter (fun s =>
          !(decide (s.subscriber = subscriber) && (!truthy scope || decide (s.scope = scope))))
        if kept = [] ∧ q.2 ≠ [] then none else some (q.1, kept)) := by
  unfold removeAllScopedEventListeners
  exact removeAllEntries_eq _ st.subscribers

/-- Claim C8: removeScope removes exactly the records whose scope equals
the given scope, across all keys and subscribers, keeping every other
record in order and deleting a key whose bucket empties; in particular
after three listeners of scope S and one without a scope, removing scope
S leaves exactly the unscoped listener. -/
theorem C8_removeScope_exact :
    (∀ (st : BusState) (sc : String),
      (removeScope st sc).subscribers =
        st.subscribers.filterMap (fun q =>
          let kept := q.2.filter (fun s => !decide (s.scope = some sc))
          if kept = [] ∧ q.2 ≠ [] then none else some (q.1, kept))) ∧
    (removeScope c8s "S").subscribers =
      [(EventKey.name "ev", [⟨cbD, Phase.after, none, "subD"⟩])] := by
  constructor
  · intro st sc
    unfold removeScope
    exact removeAllEntries_eq _ st.subscribers
  · decide

/-- Claim C9, counterexample: addScopedEventListener performs no
invocability check, so registering a non-function value through the
scoped register operation stores it and changes the registry. -/
theorem C9_counterexample_scoped_register_stores :
    junkCb.isFn = false ∧
    (addScopedEventListener emptyBus [EventKey.name "ev"] junkCb "sub" none Phase.after).subscribers =
      [(EventKey.name "ev", [⟨junkCb, Phase.after, none, "sub"⟩])] := by
  decide

/-- Claim C9 as amended: the EventTarget entry points addEventListener
and removeEventListener return immediately on a non-invocable callback,
leaving the whole bus state unchanged and raising no error. -/
theorem C9_eventTarget_noop_on_noninvocable (st : BusState) (t : String) (cb : Callback)
    (options : Option ScopedEventListenerOptions) (h : cb.isFn = false) :
    addEventListener st t cb options = st ∧ removeEventListener st t cb options = st := by
  constructor
  · unfold addEventListener
    simp [h]
  · unfold removeEventListener
    simp [h]

/-- Claim C9 witness: the amended statement applied to the concrete
non-function value. -/
theorem C9_eventTarget_noop_witness :
    junkCb.isFn = false ∧
    (addEventListener emptyBus "ev" junkCb none = emptyBus ∧
     removeEventListener emptyBus "ev" junkCb none = emptyBus) :=
  ⟨rfl, C9_eventTarget_noop_on_noninvocable emptyBus "ev" junkCb none rfl⟩

/-- Claim C10: dispatchScopedEvent never writes the _subscribers Map;
for every state, event name, scope, phase and detail the registry after
a dispatch is the one before (callbacks are modelled without bus
effects, matching the proviso of the claim). -/
theorem C10_dispatch_preserves_registry (st : BusState) (event : String)
    (scope : Option String) (phase : Phase) (detail : List (String × String)) :
    (dispatchScopedEvent st event scope phase detail).state.subscribers = st.subscribers := rfl

end SEB
